import Mathlib

/-!
Verification development for the SKTMAIN employee-attendance repository.

The repository ships the mobile front end (`frontend/app/*.tsx` and two
unnamed kiosk variants) together with `FACE_RECOGNITION_IMPLEMENTATION.md`,
which documents the backend (`server.py`: `detect_face`,
`extract_face_descriptor`, `compare_descriptors`, `recognize_face`) that is
not part of the source tree.  The backend components are therefore modelled
here from the specification, while the kiosk response handling is embedded
from the shipped TypeScript sources.

Conventions: images are grayscale pixel grids `List (List Nat)` with values
in 0..255; descriptor arithmetic is over `ℚ`, with Euclidean distances
represented by their squares (the backend's threshold 1.5 becomes the
squared threshold 9/4; the bridge to `Real.sqrt` is proved where a claim
speaks about the Euclidean distance itself).
-/

/-! ## Attendance model (AttendanceResolver) -/

/-- The two attendance directions ("punch in" / "punch out"). -/
inductive Direction where
  | CheckIn : Direction
  | CheckOut : Direction
deriving DecidableEq, Repr

/-- The opposite direction. -/
def flipDir : Direction → Direction
  | .CheckIn => .CheckOut
  | .CheckOut => .CheckIn

/-- Modelled from the spec: the AttendanceResolver rule of the backend
(absent from `src/`): fetch the most recent `AttendanceEvent` for the
identity; if none exists or the most recent was `CheckOut`, the new
direction is `CheckIn`; if the most recent was `CheckIn`, the new direction
is `CheckOut`. -/
def nextDirection : Option Direction → Direction
  | none => .CheckIn
  | some .CheckOut => .CheckIn
  | some .CheckIn => .CheckOut

/-- Modelled from the spec: one successful recognition appends one event to
the identity's append-only log (stored oldest first, so the most recent
event is the last element). -/
def recordEvent (log : List Direction) : List Direction :=
  log ++ [nextDirection log.getLast?]

/-- The attendance logs reachable from an empty history by successful
recognitions. -/
inductive ReachableLog : List Direction → Prop where
  | nil : ReachableLog []
  | step (l : List Direction) : ReachableLog l → ReachableLog (recordEvent l)

/-- `alternatesFrom d l` checks that `l` is the alternating sequence
`d, flipDir d, d, …`. -/
def alternatesFrom (d : Direction) : List Direction → Bool
  | [] => true
  | e :: es => e == d && alternatesFrom (flipDir d) es

/-- The direction an alternating-from-`d` log expects next: `d` for the
empty log, otherwise the flip of the last entry. -/
def succDir (d : Direction) (l : List Direction) : Direction :=
  match l.getLast? with
  | none => d
  | some e => flipDir e

/-! ## Match engine (MatchEngine / compare_descriptors) -/

/-- An enrolled identity as stored by the backend: identifier, display
name and the persisted HOG face descriptor. -/
structure Enrolled where
  identityId : String
  name : String
  descriptor : List ℚ
deriving DecidableEq, Repr

/-- Squared Euclidean distance between two descriptors
(`compare_descriptors` computes the Euclidean distance; the square is kept
so that the model stays inside `ℚ`). -/
def sqDist (p q : List ℚ) : ℚ :=
  (List.zipWith (fun a b => (a - b) ^ 2) p q).sum

/-- The squared recognition threshold: the documented threshold is
`1.5`, so squared distances are compared against `(3/2)^2 = 9/4`. -/
def matchThresholdSq : ℚ := 9 / 4

/-- Modelled from the spec: the backend's linear scan over all enrolled
employees (absent from `src/`), keeping the first enrolled identity whose
distance to the probe is strictly smaller than the best so far — i.e. the
first identity attaining the minimum distance, together with that squared
distance. -/
def bestMatch (probe : List ℚ) : List Enrolled → Option (Enrolled × ℚ)
  | [] => none
  | e :: es =>
    match bestMatch probe es with
    | none => some (e, sqDist probe e.descriptor)
    | some (b, bd) =>
      if bd < sqDist probe e.descriptor then some (b, bd)
      else some (e, sqDist probe e.descriptor)

/-- The transient recognition verdict: whether a gallery identity fell
within the threshold, which identity, and the squared distance of the best
candidate. -/
structure MatchResult where
  matched : Bool
  identityId : Option String
  sqDistance : Option ℚ
deriving DecidableEq, Repr

/-- Modelled from the spec: the MatchEngine (absent from `src/`):
compute the distance to every enrolled descriptor, select the
minimum-distance identity, and report a match exactly when the minimum
distance is at most the threshold. -/
def matchEngine (probe : List ℚ) (gallery : List Enrolled) : MatchResult :=
  match bestMatch probe gallery with
  | none => ⟨false, none, none⟩
  | some (b, d) =>
    if d ≤ matchThresholdSq then ⟨true, some b.identityId, some d⟩
    else ⟨false, none, some d⟩

/-! ## Face detector (detect_face) -/

/-- A grayscale pixel grid, row-major, values 0..255.  The decoder and the
detector both work on grayscale data, so images are modelled already
converted. -/
abbrev Image := List (List Nat)

/-- A detected face region: `(x, y, width, height)` in pixels. -/
structure BBox where
  x : Nat
  y : Nat
  w : Nat
  h : Nat
deriving DecidableEq, Repr

def imgH (img : Image) : Nat := img.length

def imgW (img : Image) : Nat := (img.head?.map List.length).getD 0

/-- The configured minimum face size (100×100 px). -/
def minFaceSize : Nat := 100

/-- The configured minimum number of overlapping detections required to
confirm a candidate. -/
def minNeighbors : Nat := 5

/-- Search-window sizes of the multi-scale pass: starting size `s`, each
pass grows the window by the scale factor 1.1 (integer model `s * 11 / 10`,
kept strictly increasing), until the window no longer fits in `maxDim`.
`fuel` bounds the recursion; every size emitted is at least `s`. -/
def sizesFrom : Nat → Nat → Nat → List Nat
  | 0, _, _ => []
  | fuel + 1, s, maxDim =>
    if s ≤ maxDim then s :: sizesFrom fuel (max (s + 1) (s * 11 / 10)) maxDim
    else []

/-- Modelled from the spec: the sliding-window pass of the Haar-cascade
detector (absent from `src/`).  The per-window cascade classifier itself is
kept abstract as the `classify` parameter; the wrapper enumerates square
windows of every scale-pass size from `minFaceSize` upward at every
position inside the image and keeps the windows the classifier accepts. -/
def candidateBoxes (classify : Image → BBox → Bool) (img : Image) : List BBox :=
  ((sizesFrom (min (imgW img) (imgH img) + 1) minFaceSize
      (min (imgW img) (imgH img))).flatMap fun s =>
    (List.range (imgW img - s + 1)).flatMap fun x =>
      (List.range (imgH img - s + 1)).map fun y => BBox.mk x y s s).filter
    (classify img)

/-- Two candidate rectangles overlap. -/
def boxesOverlap (a b : BBox) : Bool :=
  a.x ≤ b.x + b.w && b.x ≤ a.x + a.w && a.y ≤ b.y + b.h && b.y ≤ a.y + a.h

/-- Modelled from the spec: `detect_face` (absent from `src/`): run the
multi-scale sliding-window classifier and suppress false positives by
keeping only candidates confirmed by at least `minNeighbors` overlapping
detections. -/
def detect_face (classify : Image → BBox → Bool) (img : Image) : List BBox :=
  let cand := candidateBoxes classify img
  cand.filter fun b => minNeighbors ≤ (cand.filter (boxesOverlap b)).length

/-! ## Descriptor extractor (extract_face_descriptor) -/

/-- HOG configuration of the backend: detection window 128×128, block
16×16, block stride 8×8, cell 8×8, 9 orientation bins. -/
def winSize : Nat := 128

def blockSize : Nat := 16

def blockStride : Nat := 8

def cellSize : Nat := 8

def nbins : Nat := 9

/-- Number of block positions per row/column of the window:
`(128 - 16) / 8 + 1 = 15`. -/
def blocksPerRow : Nat := (winSize - blockSize) / blockStride + 1

/-- Number of cells per block side: `16 / 8 = 2`. -/
def cellsPerBlock : Nat := blockSize / cellSize

/-- Pixel of a crop at row `r`, column `c`, as an integer (out-of-range
reads give 0). -/
def pxAt (crop : List (List Nat)) (r c : Nat) : Int :=
  ((crop.getD r []).getD c 0 : Nat)

/-- Horizontal central-difference gradient (truncated subtraction on the
coordinate replicates the border pixel, as the backend's border handling
does). -/
def gradX (crop : List (List Nat)) (r c : Nat) : Int :=
  pxAt crop r (c + 1) - pxAt crop r (c - 1)

/-- Vertical central-difference gradient. -/
def gradY (crop : List (List Nat)) (r c : Nat) : Int :=
  pxAt crop (r + 1) c - pxAt crop (r - 1) c

/-- Squared gradient magnitude (the model keeps the square so that the
computation stays in `ℚ`). -/
def sqMag (crop : List (List Nat)) (r c : Nat) : ℚ :=
  ((gradX crop r c) ^ 2 + (gradY crop r c) ^ 2 : Int)

/-- Modelled from the spec: the 9-way orientation quantization of the HOG
step (absent from `src/`; the exact 20°-sector boundaries involve
trigonometric constants, modelled here by an executable rational sector
index over the unsigned 0..180° range). -/
def orientationBin (gx gy : Int) : Nat :=
  let ax := gx.natAbs
  let ay := gy.natAbs
  let q := if ax + ay = 0 then 0 else min 8 (ay * 9 / (ax + ay))
  if (0 ≤ gx) = (0 ≤ gy) then q else 8 - q

/-- The 9-bin gradient histogram of the 8×8 cell whose top-left pixel is
`(r0, c0)`: each pixel votes its squared gradient magnitude into its
orientation bin. -/
def cellHistAt (crop : List (List Nat)) (r0 c0 : Nat) : List ℚ :=
  (List.range nbins).map fun b =>
    ((List.range cellSize).flatMap fun i =>
      (List.range cellSize).map fun j =>
        let r := r0 + i
        let c := c0 + j
        if orientationBin (gradX crop r c) (gradY crop r c) = b then sqMag crop r c
        else 0).sum

/-- The concatenated 2×2 cell histograms of the block at block coordinates
`(by_, bx)` (36 values per block). -/
def blockFeature (crop : List (List Nat)) (by_ bx : Nat) : List ℚ :=
  (List.range cellsPerBlock).flatMap fun ci =>
    (List.range cellsPerBlock).flatMap fun cj =>
      cellHistAt crop (by_ * blockStride + ci * cellSize)
        (bx * blockStride + cj * cellSize)

/-- Block normalization (the backend uses the HOG block L2 normalization;
the model normalizes by the block sum to stay in `ℚ` — length and
determinism are unaffected). -/
def normalizeBlock (v : List ℚ) : List ℚ :=
  let s := v.sum
  if s = 0 then v else v.map (· / s)

/-- The full HOG feature vector over the 128×128 window: one normalized
36-value block feature for every block position. -/
def hogFeatures (crop : List (List Nat)) : List ℚ :=
  (List.range blocksPerRow).flatMap fun by_ =>
    (List.range blocksPerRow).flatMap fun bx =>
      normalizeBlock (blockFeature crop by_ bx)

/-- Nearest-neighbour resize of the region of `img` with top-left
`(x0, y0)` and size `pw × ph` to the canonical `winSize × winSize` crop. -/
def resizeCrop (img : Image) (x0 y0 pw ph : Nat) : List (List Nat) :=
  (List.range winSize).map fun i =>
    (List.range winSize).map fun j =>
      (img.getD (y0 + i * ph / winSize) []).getD (x0 + j * pw / winSize) 0

/-- Histogram equalization of the grayscale crop: each value is replaced by
its scaled cumulative rank. -/
def equalizeCrop (crop : List (List Nat)) : List (List Nat) :=
  let flat := crop.flatMap id
  let total := flat.length
  crop.map (List.map fun v => (flat.filter (· ≤ v)).length * 255 / total)

/-- The bounding box expanded by 10% padding on each side, clamped to the
image bounds: `(x0, y0, width, height)` of the padded region. -/
def paddedRegion (img : Image) (box : BBox) : Nat × Nat × Nat × Nat :=
  let padW := box.w / 10
  let padH := box.h / 10
  let x0 := box.x - padW
  let y0 := box.y - padH
  let x1 := min (imgW img) (box.x + box.w + padW)
  let y1 := min (imgH img) (box.y + box.h + padH)
  (x0, y0, x1 - x0, y1 - y0)

/-- Modelled from the spec: `extract_face_descriptor` (absent from
`src/`): pad the bounding box by 10% per side clamped to the image, resize
to the canonical 128×128 crop, equalize, and compute the HOG feature
vector; fails only on a degenerate crop.  The `seed` argument stands for
any ambient entropy source a real implementation could observe; the
documented algorithm is a pure function of the crop, so the model never
consults it. -/
def extract_face_descriptor (seed : Nat) (img : Image) (box : BBox) :
    Option (List ℚ) :=
  match paddedRegion img box with
  | (x0, y0, pw, ph) =>
    if pw = 0 ∨ ph = 0 then none
    else some (hogFeatures (equalizeCrop (resizeCrop img x0 y0 pw ph)))

/-! ## Request pipelines (POST /api/employees, POST /api/attendance/recognize) -/

/-- The persisted state: enrolled employees and the append-only attendance
log (`(identityId, direction)` pairs, oldest first). -/
structure Store where
  employees : List Enrolled
  attendance : List (String × Direction)
deriving DecidableEq, Repr

/-- The most recent attendance direction recorded for an identity. -/
def lastDirFor (st : Store) (empId : String) : Option Direction :=
  ((st.attendance.filter fun ev => ev.1 == empId).map Prod.snd).getLast?

def dirString : Direction → String
  | .CheckIn => "in"
  | .CheckOut => "out"

def noFaceMsg : String := "No face detected in the image"

def multiFaceMsg : String := "Multiple faces detected in the image"

def noMatchMsg : String := "Face not recognized. No matching employee found"

def decodeErrMsg : String := "Invalid image format"

def extractErrMsg : String := "Failed to process the face region"

def timeoutMsg : String := "Request timed out during processing"

def storeDownMsg : String := "Attendance store unavailable"

def recognizedMsg : String := "Attendance recorded successfully"

def registeredMsg : String := "Employee registered successfully"

/-- The JSON body of `POST /api/attendance/recognize`, together with the
HTTP status it is served with. -/
structure RecognizeResponse where
  status : Nat
  recognized : Bool
  employeeId : Option String
  employeeName : Option String
  attendanceType : Option String
  message : String
deriving DecidableEq, Repr

/-- The response of `POST /api/employees`. -/
structure RegisterResponse where
  status : Nat
  employeeId : Option String
  message : String
deriving DecidableEq, Repr

/-- Modelled from the spec: the `POST /api/attendance/recognize` handler
(`recognize_face` in the absent `server.py`).  The base64 payload is
represented by the pixel buffer it decodes to (`none` for an invalid
payload); `timedOut` models a request timeout during detection/extraction
and `storeUp` the availability of the persistence layer.  Detection and
extraction failures and a best distance above threshold produce a 200-level
`recognized:false` response; the store is written only at the final step. -/
def processRecognize (classify : Image → BBox → Bool) (st : Store)
    (payload : Option Image) (timedOut storeUp : Bool) :
    RecognizeResponse × Store :=
  match payload with
  | none => (⟨400, false, none, none, none, decodeErrMsg⟩, st)
  | some img =>
    if timedOut then (⟨500, false, none, none, none, timeoutMsg⟩, st)
    else
      match detect_face classify img with
      | [] => (⟨200, false, none, none, none, noFaceMsg⟩, st)
      | [box] =>
        match extract_face_descriptor 0 img box with
        | none => (⟨500, false, none, none, none, extractErrMsg⟩, st)
        | some probe =>
          match bestMatch probe st.employees with
          | none => (⟨200, false, none, none, none, noMatchMsg⟩, st)
          | some (b, d) =>
            if d ≤ matchThresholdSq then
              if storeUp then
                let dir := nextDirection (lastDirFor st b.identityId)
                (⟨200, true, some b.identityId, some b.name,
                    some (dirString dir), recognizedMsg⟩,
                  ⟨st.employees, st.attendance ++ [(b.identityId, dir)]⟩)
              else (⟨503, false, none, none, none, storeDownMsg⟩, st)
            else (⟨200, false, none, none, none, noMatchMsg⟩, st)
      | _ :: _ :: _ => (⟨200, false, none, none, none, multiFaceMsg⟩, st)

/-- Modelled from the spec: the `POST /api/employees` registration handler
(absent from `src/`): decode, require exactly one face, extract the
descriptor, and only then enroll; every earlier failure is a 4xx/5xx with
the store untouched. -/
def processRegister (classify : Image → BBox → Bool) (st : Store)
    (payload : Option Image) (newId newName : String)
    (timedOut storeUp : Bool) : RegisterResponse × Store :=
  match payload with
  | none => (⟨400, none, decodeErrMsg⟩, st)
  | some img =>
    if timedOut then (⟨500, none, timeoutMsg⟩, st)
    else
      match detect_face classify img with
      | [] => (⟨400, none, noFaceMsg⟩, st)
      | [box] =>
        match extract_face_descriptor 0 img box with
        | none => (⟨500, none, extractErrMsg⟩, st)
        | some desc =>
          if storeUp then
            (⟨200, some newId, registeredMsg⟩,
              ⟨st.employees ++ [⟨newId, newName, desc⟩], st.attendance⟩)
          else (⟨503, none, storeDownMsg⟩, st)
      | _ :: _ :: _ => (⟨400, none, multiFaceMsg⟩, st)

/-! ## Kiosk client response handling (src/frontend/app/kiosk.tsx,
src/unnamed/part_000) -/

/-- The recognize-response fields the kiosk reads. -/
structure RecognizeData where
  recognized : Bool
  employeeName : String
  attendanceType : String
  message : String
deriving DecidableEq, Repr

/-- What the kiosk shows in its result overlay: a green success card or a
red failure card. -/
inductive KioskResult where
  | success (name action message : String) : KioskResult
  | failure (message : String) : KioskResult
deriving DecidableEq, Repr

/-- `leadsWith pat l` : `pat` is an initial segment of `l`. -/
def leadsWith : List Char → List Char → Bool
  | [], _ => true
  | _ :: _, [] => false
  | p :: ps, c :: cs => p == c && leadsWith ps cs

/-- `listContains pat l` : `pat` occurs contiguously inside `l`. -/
def listContains (pat : List Char) : List Char → Bool
  | [] => pat.isEmpty
  | c :: cs => leadsWith pat (c :: cs) || listContains pat cs

/-- JavaScript `String.prototype.includes`, as used by the kiosk. -/
def strContains (s pat : String) : Bool :=
  listContains pat.data s.data

/-- `handleAutomaticScan` response handling in `frontend/app/kiosk.tsx`
(lines 120–137): a recognized response sets a success result; a
non-recognized response sets a failure result unless its message contains
"No face detected" or "quality", in which case nothing is shown. -/
def kioskHandle (d : RecognizeData) : Option KioskResult :=
  if d.recognized then
    some (.success d.employeeName d.attendanceType d.message)
  else
    if strContains d.message "No face detected" || strContains d.message "quality" then
      none
    else
      some (.failure d.message)

/-- `handleAutomaticScan` response handling in `src/unnamed/part_000`
(lines 112–122): a recognized response sets a success result; every
non-recognized response shows nothing. -/
def kioskHandleV2 (d : RecognizeData) : Option KioskResult :=
  if d.recognized then
    some (.success d.employeeName d.attendanceType d.message)
  else
    none

/-- The speech line of both kiosk variants: spoken only when a success
result with a non-empty name is shown (`result.success && result.name`). -/
def kioskSpeech : Option KioskResult → Option String
  | some (.success n _ _) => if n = "" then none else some ("Welcome " ++ n)
  | _ => none

/-! ## Serialized attendance resolution (concurrency model) -/

/-- Labels for two concurrent recognition requests. -/
inductive ReqId where
  | A : ReqId
  | B : ReqId
deriving DecidableEq, Repr

/-- Modelled from the spec: the AttendanceResolver serializes the
read-then-write of the last attendance event per identity, so a schedule of
recognition requests for one identity executes as a sequence of atomic
read-compute-append steps.  `runSchedule` runs the requests in arrival
order over the identity's log and returns each request's response direction
together with the final log. -/
def runSchedule : List ReqId → List Direction →
    List (ReqId × Direction) × List Direction
  | [], log => ([], log)
  | r :: rs, log =>
    let d := nextDirection log.getLast?
    let res := runSchedule rs (recordEvent log)
    ((r, d) :: res.1, res.2)

/-! ### Basic lemmas about the attendance log -/

theorem succDir_cons (d : Direction) (e : Direction) (es : List Direction)
    (h : e = d) : succDir d (e :: es) = succDir (flipDir d) es := by
  cases es with
  | nil => simp [succDir, h]
  | cons f fs =>
    simp only [succDir, List.getLast?_cons_cons]
    cases h2 : (f :: fs).getLast? with
    | none => simp at h2
    | some g => rfl

theorem alternatesFrom_append_succDir (l : List Direction) :
    ∀ d : Direction, alternatesFrom d l = true →
      alternatesFrom d (l ++ [succDir d l]) = true := by
  induction l with
  | nil => intro d _; simp [succDir, alternatesFrom]
  | cons e es ih =>
    intro d h
    simp only [alternatesFrom, Bool.and_eq_true, beq_iff_eq] at h
    obtain ⟨he, hes⟩ := h
    rw [succDir_cons d e es he]
    simp only [List.cons_append, alternatesFrom, Bool.and_eq_true, beq_iff_eq]
    exact ⟨he, ih (flipDir d) hes⟩

theorem nextDirection_eq_succDir_checkIn (l : List Direction) :
    nextDirection l.getLast? = succDir Direction.CheckIn l := by
  unfold succDir
  cases h : l.getLast? with
  | none => rfl
  | some e => cases e <;> rfl

theorem reachable_alternates (l : List Direction) (h : ReachableLog l) :
    alternatesFrom Direction.CheckIn l = true := by
  induction h with
  | nil => rfl
  | step l' _ ih =>
    unfold recordEvent
    rw [nextDirection_eq_succDir_checkIn]
    exact alternatesFrom_append_succDir l' Direction.CheckIn ih

/-! ### Basic lemmas about the match engine -/

theorem bestMatch_cons_isSome (probe : List ℚ) (e : Enrolled) (es : List Enrolled) :
    (bestMatch probe (e :: es)).isSome = true := by
  unfold bestMatch
  cases bestMatch probe es with
  | none => rfl
  | some p =>
    obtain ⟨b, bd⟩ := p
    by_cases h : bd < sqDist probe e.descriptor <;> simp [h]

theorem bestMatch_spec (probe : List ℚ) (g : List Enrolled) (hg : g ≠ []) :
    ∃ b ∈ g, bestMatch probe g = some (b, sqDist probe b.descriptor) ∧
      ∀ e ∈ g, sqDist probe b.descriptor ≤ sqDist probe e.descriptor := by
  induction g with
  | nil => exact absurd rfl hg
  | cons e es ih =>
    cases es with
    | nil =>
      refine ⟨e, List.mem_singleton_self e, rfl, ?_⟩
      intro x hx
      rw [List.mem_singleton] at hx
      rw [hx]
    | cons f fs =>
      obtain ⟨b, hbmem, hbeq, hbmin⟩ := ih (by simp)
      by_cases hlt : sqDist probe b.descriptor < sqDist probe e.descriptor
      · refine ⟨b, List.mem_cons_of_mem e hbmem, ?_, ?_⟩
        · unfold bestMatch
          rw [hbeq]
          simp [hlt]
        · intro x hx
          rcases List.mem_cons.mp hx with hxe | hxs
          · rw [hxe]; exact le_of_lt hlt
          · exact hbmin x hxs
      · have hle : sqDist probe e.descriptor ≤ sqDist probe b.descriptor :=
          le_of_not_lt hlt
        refine ⟨e, List.mem_cons_self e _, ?_, ?_⟩
        · unfold bestMatch
          rw [hbeq]
          simp [hlt]
        · intro x hx
          rcases List.mem_cons.mp hx with hxe | hxs
          · rw [hxe]
          · exact le_trans hle (hbmin x hxs)

theorem bestMatch_mem (probe : List ℚ) (g : List Enrolled) (b : Enrolled) (d : ℚ)
    (h : bestMatch probe g = some (b, d)) :
    b ∈ g ∧ d = sqDist probe b.descriptor ∧
      ∀ e ∈ g, d ≤ sqDist probe e.descriptor := by
  cases g with
  | nil => simp [bestMatch] at h
  | cons e es =>
    obtain ⟨b', hbmem, hbeq, hbmin⟩ := bestMatch_spec probe (e :: es) (by simp)
    rw [hbeq] at h
    have h' := Option.some.inj h
    have hb : b' = b := congrArg Prod.fst h'
    have hd : sqDist probe b'.descriptor = d := congrArg Prod.snd h'
    subst hb
    exact ⟨hbmem, hd.symm, fun x hx => hd ▸ hbmin x hx⟩

/-! ### Lemmas about the detector and extractor -/

theorem sizesFrom_ge (fuel : Nat) :
    ∀ s maxDim t, t ∈ sizesFrom fuel s maxDim → s ≤ t := by
  induction fuel with
  | zero => intro s maxDim t ht; simp [sizesFrom] at ht
  | succ n ih =>
    intro s maxDim t ht
    unfold sizesFrom at ht
    by_cases hs : s ≤ maxDim
    · rw [if_pos hs] at ht
      rcases List.mem_cons.mp ht with h | h
      · exact h ▸ le_refl s
      · have hnext := ih (max (s + 1) (s * 11 / 10)) maxDim t h
        exact le_trans (le_trans (Nat.le_succ s) (le_max_left _ _)) hnext
    · rw [if_neg hs] at ht
      simp at ht

theorem candidateBoxes_size (classify : Image → BBox → Bool) (img : Image)
    (b : BBox) (hb : b ∈ candidateBoxes classify img) :
    minFaceSize ≤ b.w ∧ minFaceSize ≤ b.h := by
  unfold candidateBoxes at hb
  have hb' := List.mem_of_mem_filter hb
  simp only [List.mem_flatMap, List.mem_map, List.mem_range] at hb'
  obtain ⟨s, hs, x, _, y, _, hbeq⟩ := hb'
  have hsge := sizesFrom_ge _ _ _ _ hs
  constructor
  · rw [← hbeq]; exact hsge
  · rw [← hbeq]; exact hsge

theorem detect_face_size (classify : Image → BBox → Bool) (img : Image)
    (b : BBox) (hb : b ∈ detect_face classify img) :
    minFaceSize ≤ b.w ∧ minFaceSize ≤ b.h := by
  unfold detect_face at hb
  exact candidateBoxes_size classify img b (List.mem_of_mem_filter hb)

theorem cellHistAt_length (crop : List (List Nat)) (r0 c0 : Nat) :
    (cellHistAt crop r0 c0).length = nbins := by
  unfold cellHistAt
  simp

theorem length_flatMap_const {α β : Type} (l : List α) (f : α → List β) (k : Nat)
    (h : ∀ a ∈ l, (f a).length = k) : (l.flatMap f).length = l.length * k := by
  induction l with
  | nil => simp
  | cons a as ih =>
    simp only [List.flatMap_cons, List.length_append, List.length_cons]
    rw [h a (List.mem_cons_self a as), ih (fun x hx => h x (List.mem_cons_of_mem a hx))]
    ring

theorem blockFeature_length (crop : List (List Nat)) (by_ bx : Nat) :
    (blockFeature crop by_ bx).length = 36 := by
  unfold blockFeature
  rw [length_flatMap_const _ _ (cellsPerBlock * nbins)]
  · rfl
  · intro ci _
    rw [length_flatMap_const _ _ nbins]
    · simp
    · intro cj _
      exact cellHistAt_length crop _ _

theorem normalizeBlock_length (v : List ℚ) :
    (normalizeBlock v).length = v.length := by
  unfold normalizeBlock
  by_cases h : v.sum = 0 <;> simp [h]

theorem hogFeatures_length (crop : List (List Nat)) :
    (hogFeatures crop).length = 8100 := by
  unfold hogFeatures
  rw [length_flatMap_const _ _ (blocksPerRow * 36)]
  · rfl
  · intro by_ _
    rw [length_flatMap_const _ _ 36]
    · simp
    · intro bx _
      rw [normalizeBlock_length, blockFeature_length]

/-! ### Bridging the squared-distance model with Euclidean distance -/

theorem sqDist_nonneg (p : List ℚ) : ∀ q : List ℚ, 0 ≤ sqDist p q := by
  induction p with
  | nil => intro q; simp [sqDist]
  | cons a as ih =>
    intro q
    cases q with
    | nil => simp [sqDist]
    | cons b bs =>
      have h := ih bs
      unfold sqDist at h ⊢
      simp only [List.zipWith_cons_cons, List.sum_cons]
      exact add_nonneg (sq_nonneg (a - b)) h

theorem sqrt_cast_le_sqrt_cast (a b : ℚ) (h : a ≤ b) :
    Real.sqrt (a : ℝ) ≤ Real.sqrt (b : ℝ) :=
  Real.sqrt_le_sqrt (by exact_mod_cast h)

theorem sqrt_cast_le_threshold_iff (a : ℚ) :
    Real.sqrt (a : ℝ) ≤ 3 / 2 ↔ a ≤ matchThresholdSq := by
  have hcast : ((matchThresholdSq : ℚ) : ℝ) = 9 / 4 := by
    rw [matchThresholdSq]; norm_num
  rw [show (3 / 2 : ℝ) = Real.sqrt (9 / 4) by
    rw [show (9 / 4 : ℝ) = (3 / 2) ^ 2 by norm_num]
    exact (Real.sqrt_sq (by norm_num)).symm]
  rw [Real.sqrt_le_sqrt_iff (by norm_num), ← hcast]
  exact Rat.cast_le

/-! ### Case analysis of the request pipelines -/

theorem processRecognize_cases (classify : Image → BBox → Bool) (st : Store)
    (payload : Option Image) (timedOut storeUp : Bool) :
    (processRecognize classify st payload timedOut storeUp).2 = st ∨
    ((processRecognize classify st payload timedOut storeUp).1.recognized = true ∧
      (processRecognize classify st payload timedOut storeUp).2.employees =
        st.employees) := by
  unfold processRecognize
  repeat' split
  all_goals first
    | (left; rfl)
    | (right; exact ⟨rfl, rfl⟩)

theorem processRegister_cases (classify : Image → BBox → Bool) (st : Store)
    (payload : Option Image) (newId newName : String) (timedOut storeUp : Bool) :
    (processRegister classify st payload newId newName timedOut storeUp).2 = st ∨
    ((processRegister classify st payload newId newName timedOut storeUp).1.status
        = 200 ∧
      (processRegister classify st payload newId newName timedOut storeUp).2.attendance
        = st.attendance) := by
  unfold processRegister
  repeat' split
  all_goals first
    | (left; rfl)
    | (right; exact ⟨rfl, rfl⟩)

theorem processRecognize_success_recognized (classify : Image → BBox → Bool)
    (st : Store) (payload : Option Image) (timedOut storeUp : Bool)
    (h : (processRecognize classify st payload timedOut storeUp).1.recognized
        = false) :
    (processRecognize classify st payload timedOut storeUp).2 = st := by
  rcases processRecognize_cases classify st payload timedOut storeUp with hc | hc
  · exact hc
  · rw [hc.1] at h
    exact absurd h (by simp)

theorem matchEngine_eq (probe : List ℚ) (g : List Enrolled) (b : Enrolled) (d : ℚ)
    (h : bestMatch probe g = some (b, d)) :
    matchEngine probe g =
      if d ≤ matchThresholdSq then ⟨true, some b.identityId, some d⟩
      else ⟨false, none, some d⟩ := by
  unfold matchEngine
  rw [h]

/-! ## Claim theorems -/

/-- Claim C1: for every probe descriptor and every non-empty gallery of the
same dimension, the MatchEngine selects an identity attaining the minimum
Euclidean distance to the probe, reports matched=true with that identity
and that (squared) distance exactly when the minimum Euclidean distance is
at most the threshold 1.5 (boundary inclusive), and reports matched=false
with no identity otherwise. -/
theorem C1_matchEngine_min_threshold (probe : List ℚ) (g : List Enrolled)
    (hg : g ≠ []) (hdim : ∀ e ∈ g, e.descriptor.length = probe.length) :
    ∃ b ∈ g,
      (∀ e ∈ g, Real.sqrt ((sqDist probe b.descriptor : ℚ) : ℝ) ≤
        Real.sqrt ((sqDist probe e.descriptor : ℚ) : ℝ)) ∧
      ((matchEngine probe g).matched = true ↔
        Real.sqrt ((sqDist probe b.descriptor : ℚ) : ℝ) ≤ 3 / 2) ∧
      ((matchEngine probe g).matched = true →
        (matchEngine probe g).identityId = some b.identityId ∧
        (matchEngine probe g).sqDistance = some (sqDist probe b.descriptor)) ∧
      ((matchEngine probe g).matched = false →
        (matchEngine probe g).identityId = none) := by
  obtain ⟨b, hbmem, hbeq, hbmin⟩ := bestMatch_spec probe g hg
  have heng := matchEngine_eq probe g b _ hbeq
  refine ⟨b, hbmem, ?_, ?_, ?_, ?_⟩
  · intro e he
    exact sqrt_cast_le_sqrt_cast _ _ (hbmin e he)
  · rw [sqrt_cast_le_threshold_iff, heng]
    by_cases hd : sqDist probe b.descriptor ≤ matchThresholdSq
    · simp [hd]
    · simp [hd]
  · intro hm
    rw [heng] at hm ⊢
    by_cases hd : sqDist probe b.descriptor ≤ matchThresholdSq
    · rw [if_pos hd]
      exact ⟨rfl, rfl⟩
    · rw [if_neg hd] at hm
      exact absurd hm (by simp)
  · intro hm
    rw [heng] at hm ⊢
    by_cases hd : sqDist probe b.descriptor ≤ matchThresholdSq
    · rw [if_pos hd] at hm
      exact absurd hm (by simp)
    · rw [if_neg hd]

/-- Witness for C1 at a boundary input: one enrolled identity whose
descriptor lies at Euclidean distance exactly 1.5 from the probe; the
hypotheses hold and the engine classifies the boundary as a match. -/
theorem C1_matchEngine_min_threshold_witness :
    (([⟨"A", "Alice", [3 / 2]⟩] : List Enrolled) ≠ [] ∧
      ∀ e ∈ ([⟨"A", "Alice", [3 / 2]⟩] : List Enrolled),
        e.descriptor.length = ([0] : List ℚ).length) ∧
    (∃ b ∈ ([⟨"A", "Alice", [3 / 2]⟩] : List Enrolled),
      (∀ e ∈ ([⟨"A", "Alice", [3 / 2]⟩] : List Enrolled),
        Real.sqrt ((sqDist [0] b.descriptor : ℚ) : ℝ) ≤
          Real.sqrt ((sqDist [0] e.descriptor : ℚ) : ℝ)) ∧
      ((matchEngine [0] [⟨"A", "Alice", [3 / 2]⟩]).matched = true ↔
        Real.sqrt ((sqDist [0] b.descriptor : ℚ) : ℝ) ≤ 3 / 2) ∧
      ((matchEngine [0] [⟨"A", "Alice", [3 / 2]⟩]).matched = true →
        (matchEngine [0] [⟨"A", "Alice", [3 / 2]⟩]).identityId = some b.identityId ∧
        (matchEngine [0] [⟨"A", "Alice", [3 / 2]⟩]).sqDistance =
          some (sqDist [0] b.descriptor)) ∧
      ((matchEngine [0] [⟨"A", "Alice", [3 / 2]⟩]).matched = false →
        (matchEngine [0] [⟨"A", "Alice", [3 / 2]⟩]).identityId = none)) ∧
    (matchEngine [0] [⟨"A", "Alice", [3 / 2]⟩]).matched = true :=
  ⟨⟨by simp, by intro e he; rw [List.mem_singleton] at he; subst he; rfl⟩,
    C1_matchEngine_min_threshold [0] [⟨"A", "Alice", [3 / 2]⟩] (by simp)
      (by intro e he; rw [List.mem_singleton] at he; subst he; rfl),
    by norm_num [matchEngine, bestMatch, sqDist, matchThresholdSq]⟩

/-- Claim C2: every reachable per-identity attendance log alternates
starting from CheckIn, each appended event's direction is a function only
of the most recent prior event, and that function maps no-prior-event and
CheckOut to CheckIn and CheckIn to CheckOut. -/
theorem C2_attendance_alternation (l : List Direction) (h : ReachableLog l) :
    alternatesFrom Direction.CheckIn l = true ∧
    recordEvent l = l ++ [nextDirection l.getLast?] ∧
    nextDirection none = Direction.CheckIn ∧
    nextDirection (some Direction.CheckOut) = Direction.CheckIn ∧
    nextDirection (some Direction.CheckIn) = Direction.CheckOut :=
  ⟨reachable_alternates l h, rfl, rfl, rfl, rfl⟩

/-- Witness for C2 on the log produced by two successful recognitions of a
fresh identity. -/
theorem C2_attendance_alternation_witness :
    alternatesFrom Direction.CheckIn (recordEvent (recordEvent [])) = true ∧
    recordEvent (recordEvent (recordEvent [])) =
      recordEvent (recordEvent []) ++
        [nextDirection (recordEvent (recordEvent [])).getLast?] ∧
    nextDirection none = Direction.CheckIn ∧
    nextDirection (some Direction.CheckOut) = Direction.CheckIn ∧
    nextDirection (some Direction.CheckIn) = Direction.CheckOut :=
  C2_attendance_alternation (recordEvent (recordEvent []))
    (ReachableLog.step (recordEvent []) (ReachableLog.step [] ReachableLog.nil))

/-- Claim C3: with the AttendanceResolver serializing the read-then-write
per identity (modelled as atomic read-compute-append steps), two
simultaneous recognition requests for the same never-before-seen identity
yield exactly one CheckIn and one CheckOut — the first-scheduled request
gets CheckIn and the other CheckOut — regardless of arrival order, and
never two CheckIns. -/
theorem C3_serialized_two_requests (sched : List ReqId)
    (h : sched = [ReqId.A, ReqId.B] ∨ sched = [ReqId.B, ReqId.A]) :
    (runSchedule sched []).1.map Prod.snd =
      [Direction.CheckIn, Direction.CheckOut] ∧
    (runSchedule sched []).2 = [Direction.CheckIn, Direction.CheckOut] ∧
    (runSchedule sched []).1.map Prod.snd ≠
      [Direction.CheckIn, Direction.CheckIn] := by
  rcases h with h | h <;> subst h <;> exact ⟨rfl, rfl, by decide⟩

/-- Witness for C3 with arrival order B before A. -/
theorem C3_serialized_two_requests_witness :
    ([ReqId.B, ReqId.A] = [ReqId.A, ReqId.B] ∨
      [ReqId.B, ReqId.A] = [ReqId.B, ReqId.A]) ∧
    ((runSchedule [ReqId.B, ReqId.A] []).1.map Prod.snd =
      [Direction.CheckIn, Direction.CheckOut] ∧
    (runSchedule [ReqId.B, ReqId.A] []).2 =
      [Direction.CheckIn, Direction.CheckOut] ∧
    (runSchedule [ReqId.B, ReqId.A] []).1.map Prod.snd ≠
      [Direction.CheckIn, Direction.CheckIn]) :=
  ⟨Or.inr rfl, C3_serialized_two_requests [ReqId.B, ReqId.A] (Or.inr rfl)⟩

/-- Claim C4: a recognize request whose image yields no face, multiple
faces, or a best distance above the threshold gets a 200 response with
recognized=false and a descriptive message, never an error status, and the
no-face message differs from the face-present-but-no-match message (and
from the multiple-faces message). -/
theorem C4_soft_failure_responses (classify : Image → BBox → Bool) (st : Store)
    (img : Image) (storeUp : Bool) :
    (detect_face classify img = [] →
      (processRecognize classify st (some img) false storeUp).1.status = 200 ∧
      (processRecognize classify st (some img) false storeUp).1.recognized
        = false ∧
      (processRecognize classify st (some img) false storeUp).1.message
        = noFaceMsg) ∧
    (∀ b1 b2 rest, detect_face classify img = b1 :: b2 :: rest →
      (processRecognize classify st (some img) false storeUp).1.status = 200 ∧
      (processRecognize classify st (some img) false storeUp).1.recognized
        = false ∧
      (processRecognize classify st (some img) false storeUp).1.message
        = multiFaceMsg) ∧
    (∀ box probe, detect_face classify img = [box] →
      extract_face_descriptor 0 img box = some probe →
      (matchEngine probe st.employees).matched = false →
      (processRecognize classify st (some img) false storeUp).1.status = 200 ∧
      (processRecognize classify st (some img) false storeUp).1.recognized
        = false ∧
      (processRecognize classify st (some img) false storeUp).1.message
        = noMatchMsg) ∧
    noFaceMsg ≠ noMatchMsg ∧ noFaceMsg ≠ multiFaceMsg := by
  refine ⟨?_, ?_, ?_, by decide, by decide⟩
  · intro h
    simp only [processRecognize, h]
    exact ⟨rfl, rfl, rfl⟩
  · intro b1 b2 rest h
    simp only [processRecognize, h]
    exact ⟨rfl, rfl, rfl⟩
  · intro box probe h1 h2 h3
    simp only [processRecognize, h1, h2]
    rcases hbm : bestMatch probe st.employees with _ | ⟨b, d⟩
    · simp only [hbm]
      exact ⟨rfl, rfl, rfl⟩
    · have heng := matchEngine_eq probe st.employees b d hbm
      rw [heng] at h3
      by_cases hd : d ≤ matchThresholdSq
      · rw [if_pos hd] at h3
        exact absurd h3 (by simp)
      · simp only [hbm, if_neg hd]
        exact ⟨rfl, rfl, rfl⟩

/-- Witness for C4 on an image in which the detector finds no face. -/
theorem C4_soft_failure_responses_witness :
    detect_face (fun _ _ => false) [[0]] = [] ∧
    ((processRecognize (fun _ _ => false) ⟨[], []⟩ (some [[0]]) false true).1.status
        = 200 ∧
      (processRecognize (fun _ _ => false) ⟨[], []⟩ (some [[0]]) false
          true).1.recognized = false ∧
      (processRecognize (fun _ _ => false) ⟨[], []⟩ (some [[0]]) false
          true).1.message = noFaceMsg) := by
  have hd : detect_face (fun _ _ => false) [[0]] = [] := rfl
  exact ⟨hd, (C4_soft_failure_responses (fun _ _ => false) ⟨[], []⟩ [[0]] true).1 hd⟩

/-- Claim C5: the DescriptorExtractor is deterministic — its output is a
pure function of the pixel buffer and bounding box, independent of any
ambient entropy a run could observe, so repeated runs on the same inputs
return the identical descriptor. -/
theorem C5_extractor_deterministic (seedA seedB : Nat) (img : Image) (box : BBox) :
    extract_face_descriptor seedA img box = extract_face_descriptor seedB img box :=
  rfl

/-- Claim C6 (amended): whenever the DescriptorExtractor succeeds, the
returned descriptor has exactly 8,100 dimensions — the length forced by a
128×128 window with 16×16 blocks, 8×8 stride, 8×8 cells and 9 bins
(15 · 15 blocks · 4 cells · 9 bins); the documented figure 3,780 would
correspond to the standard 64×128 window instead. -/
theorem C6_descriptor_dims (seed : Nat) (img : Image) (box : BBox)
    (h : (extract_face_descriptor seed img box).isSome = true) :
    (extract_face_descriptor seed img box).map List.length = some 8100 := by
  unfold extract_face_descriptor at h ⊢
  rcases hpr : paddedRegion img box with ⟨x0, y0, pw, ph⟩
  dsimp only at h ⊢
  by_cases hc : pw = 0 ∨ ph = 0
  · rw [hpr] at h
    dsimp only at h
    rw [if_pos hc] at h
    exact absurd h (by simp)
  · rw [if_neg hc]
    simp [hogFeatures_length]

/-- Witness for C6 on a 1×1 image with a 1×1 box (the padded region is
non-degenerate, so extraction succeeds). -/
theorem C6_descriptor_dims_witness :
    (extract_face_descriptor 0 [[0]] ⟨0, 0, 1, 1⟩).isSome = true ∧
    (extract_face_descriptor 0 [[0]] ⟨0, 0, 1, 1⟩).map List.length = some 8100 :=
  ⟨rfl, C6_descriptor_dims 0 [[0]] ⟨0, 0, 1, 1⟩ rfl⟩

/-- Counterexample for C6 as stated: with the documented HOG parameters the
descriptor of a successful extraction has 8,100 entries, not 3,780. -/
theorem C6_counterexample :
    (extract_face_descriptor 0 [[0]] ⟨0, 0, 1, 1⟩).map List.length ≠ some 3780 := by
  unfold extract_face_descriptor
  rw [show paddedRegion [[0]] ⟨0, 0, 1, 1⟩ = (0, 0, 1, 1) from rfl]
  dsimp only
  rw [if_neg (by simp)]
  simp [hogFeatures_length]

/-- Claim C7: every bounding box returned by the FaceDetector has width and
height at least the configured minimum face size of 100 pixels, for every
image and per-window classifier. -/
theorem C7_detected_box_min_size (classify : Image → BBox → Bool) (img : Image)
    (b : BBox) (hb : b ∈ detect_face classify img) :
    100 ≤ b.w ∧ 100 ≤ b.h :=
  detect_face_size classify img b hb

/-- Witness for C7: on a 104×104 image with an always-firing classifier the
detector returns the 100×100 window at the origin (confirmed by 25
overlapping detections ≥ minNeighbors). -/
theorem C7_detected_box_min_size_witness :
    (⟨0, 0, 100, 100⟩ : BBox) ∈
      detect_face (fun _ _ => true) (List.replicate 104 (List.replicate 104 0)) ∧
    (100 ≤ (⟨0, 0, 100, 100⟩ : BBox).w ∧ 100 ≤ (⟨0, 0, 100, 100⟩ : BBox).h) := by
  have hm : (⟨0, 0, 100, 100⟩ : BBox) ∈
      detect_face (fun _ _ => true) (List.replicate 104 (List.replicate 104 0)) := by
    decide
  exact ⟨hm, C7_detected_box_min_size _ _ _ hm⟩

/-- Claim C8: a request that fails before the final persistence step
(decode, detection, extraction, timeout) or at the persistence layer
leaves the store unchanged — no enrolled identity and no attendance event
is written; a recognition request moreover never writes the employee
table. -/
theorem C8_no_partial_writes (classify : Image → BBox → Bool) (st : Store)
    (payload : Option Image) (newId newName : String) (timedOut storeUp : Bool) :
    ((processRecognize classify st payload timedOut storeUp).1.recognized = false →
      (processRecognize classify st payload timedOut storeUp).2 = st) ∧
    (processRecognize classify st payload timedOut storeUp).2.employees
      = st.employees ∧
    ((processRegister classify st payload newId newName timedOut storeUp).1.status
        ≠ 200 →
      (processRegister classify st payload newId newName timedOut storeUp).2 = st) := by
  refine ⟨processRecognize_success_recognized classify st payload timedOut storeUp,
    ?_, ?_⟩
  · rcases processRecognize_cases classify st payload timedOut storeUp with hc | hc
    · rw [hc]
    · exact hc.2
  · intro h
    rcases processRegister_cases classify st payload newId newName timedOut storeUp
      with hc | hc
    · exact hc
    · exact absurd hc.1 h

/-- Witness for C8 on a request with an undecodable payload: the response
is a failure and the store is untouched, for both endpoints. -/
theorem C8_no_partial_writes_witness :
    (processRecognize (fun _ _ => false) ⟨[], []⟩ none false true).1.recognized
        = false ∧
    (processRegister (fun _ _ => false) ⟨[], []⟩ none "e1" "Alice" false
        true).1.status ≠ 200 ∧
    ((processRecognize (fun _ _ => false) ⟨[], []⟩ none false true).2 = ⟨[], []⟩ ∧
      (processRecognize (fun _ _ => false) ⟨[], []⟩ none false true).2.employees
        = (⟨[], []⟩ : Store).employees ∧
      (processRegister (fun _ _ => false) ⟨[], []⟩ none "e1" "Alice" false
          true).2 = ⟨[], []⟩) := by
  have h := C8_no_partial_writes (fun _ _ => false) ⟨[], []⟩ none "e1" "Alice"
    false true
  exact ⟨rfl, by decide, h.1 rfl, h.2.1, h.2.2 (by decide)⟩

/-- Claim C9 (amended): the matched flag and the reported best distance of
the MatchEngine are invariant under permutation of the gallery; the
selected identity is invariant whenever all gallery entries attaining the
minimum distance carry the same identity (under ties between distinct
identities the scan order decides, as the spec's open question notes). -/
theorem C9_permutation_invariance (p : List ℚ) (g gPerm : List Enrolled)
    (hperm : g.Perm gPerm) :
    (matchEngine p g).matched = (matchEngine p gPerm).matched ∧
    (matchEngine p g).sqDistance = (matchEngine p gPerm).sqDistance ∧
    ((∀ e1 ∈ g, ∀ e2 ∈ g,
        (∀ x ∈ g, sqDist p e1.descriptor ≤ sqDist p x.descriptor) →
        (∀ x ∈ g, sqDist p e2.descriptor ≤ sqDist p x.descriptor) →
        e1.identityId = e2.identityId) →
      (matchEngine p g).identityId = (matchEngine p gPerm).identityId) := by
  by_cases hg : g = []
  · have hg' : gPerm = [] := by
      subst hg
      exact hperm.symm.eq_nil
    subst hg
    subst hg'
    exact ⟨rfl, rfl, fun _ => rfl⟩
  · have hg' : gPerm ≠ [] := by
      intro hnil
      subst hnil
      exact hg hperm.eq_nil
    obtain ⟨b, hbmem, hbeq, hbmin⟩ := bestMatch_spec p g hg
    obtain ⟨b', hbmem', hbeq', hbmin'⟩ := bestMatch_spec p gPerm hg'
    have hmemg : b' ∈ g := hperm.mem_iff.mpr hbmem'
    have hmemg' : b ∈ gPerm := hperm.mem_iff.mp hbmem
    have hdist : sqDist p b.descriptor = sqDist p b'.descriptor :=
      le_antisymm (hbmin b' hmemg) (hbmin' b hmemg')
    have heng := matchEngine_eq p g b _ hbeq
    have heng' := matchEngine_eq p gPerm b' _ hbeq'
    rw [heng, heng', hdist]
    by_cases hthr : sqDist p b'.descriptor ≤ matchThresholdSq
    · simp only [if_pos hthr]
      refine ⟨trivial, trivial, fun huniq => ?_⟩
      have hid : b.identityId = b'.identityId :=
        huniq b hbmem b' hmemg hbmin
          (fun x hx => hbmin' x (hperm.mem_iff.mp hx))
      rw [hid]
    · simp only [if_neg hthr]
      exact ⟨trivial, trivial, fun _ => trivial⟩

/-- Witness for C9 on a two-identity gallery with distinct distances and
its reversal. -/
theorem C9_permutation_invariance_witness :
    ([⟨"A", "Alice", [1]⟩, ⟨"B", "Bob", [2]⟩] : List Enrolled).Perm
      [⟨"B", "Bob", [2]⟩, ⟨"A", "Alice", [1]⟩] ∧
    ((matchEngine [0] [⟨"A", "Alice", [1]⟩, ⟨"B", "Bob", [2]⟩]).matched =
      (matchEngine [0] [⟨"B", "Bob", [2]⟩, ⟨"A", "Alice", [1]⟩]).matched ∧
    (matchEngine [0] [⟨"A", "Alice", [1]⟩, ⟨"B", "Bob", [2]⟩]).sqDistance =
      (matchEngine [0] [⟨"B", "Bob", [2]⟩, ⟨"A", "Alice", [1]⟩]).sqDistance) ∧
    (matchEngine [0] [⟨"A", "Alice", [1]⟩, ⟨"B", "Bob", [2]⟩]).identityId =
      (matchEngine [0] [⟨"B", "Bob", [2]⟩, ⟨"A", "Alice", [1]⟩]).identityId := by
  have hperm : ([⟨"A", "Alice", [1]⟩, ⟨"B", "Bob", [2]⟩] : List Enrolled).Perm
      [⟨"B", "Bob", [2]⟩, ⟨"A", "Alice", [1]⟩] :=
    List.Perm.swap _ _ _
  have h := C9_permutation_invariance [0]
    [⟨"A", "Alice", [1]⟩, ⟨"B", "Bob", [2]⟩]
    [⟨"B", "Bob", [2]⟩, ⟨"A", "Alice", [1]⟩] hperm
  refine ⟨hperm, ⟨h.1, h.2.1⟩, h.2.2 ?_⟩
  intro e1 h1 e2 h2 hmin1 hmin2
  have hA : (⟨"A", "Alice", [1]⟩ : Enrolled) ∈
      ([⟨"A", "Alice", [1]⟩, ⟨"B", "Bob", [2]⟩] : List Enrolled) := by simp
  have hB : (⟨"B", "Bob", [2]⟩ : Enrolled) ∈
      ([⟨"A", "Alice", [1]⟩, ⟨"B", "Bob", [2]⟩] : List Enrolled) := by simp
  rcases List.mem_pair.mp h1 with he1 | he1 <;>
    rcases List.mem_pair.mp h2 with he2 | he2 <;>
      subst he1 <;> subst he2
  · rfl
  · exact absurd (hmin2 _ hA) (by norm_num [sqDist])
  · exact absurd (hmin1 _ hA) (by norm_num [sqDist])
  · rfl

/-- Counterexample for C9 as stated: with two distinct identities enrolled
at identical descriptors, the two orderings of the same gallery make the
engine report different identities (the scan keeps the first minimum). -/
theorem C9_counterexample :
    ([⟨"A", "Alice", [0]⟩, ⟨"B", "Bob", [0]⟩] : List Enrolled).Perm
      [⟨"B", "Bob", [0]⟩, ⟨"A", "Alice", [0]⟩] ∧
    (matchEngine [0] [⟨"A", "Alice", [0]⟩, ⟨"B", "Bob", [0]⟩]).identityId ≠
      (matchEngine [0] [⟨"B", "Bob", [0]⟩, ⟨"A", "Alice", [0]⟩]).identityId := by
  constructor
  · exact List.Perm.swap _ _ _
  · have h1 : (matchEngine [0] [⟨"A", "Alice", [0]⟩, ⟨"B", "Bob", [0]⟩]).identityId
        = some "A" := by
      norm_num [matchEngine, bestMatch, sqDist, matchThresholdSq]
    have h2 : (matchEngine [0] [⟨"B", "Bob", [0]⟩, ⟨"A", "Alice", [0]⟩]).identityId
        = some "B" := by
      norm_num [matchEngine, bestMatch, sqDist, matchThresholdSq]
    rw [h1, h2]
    simp

/-- Claim C10: the kiosk displays (and speaks) a success result exactly for
recognized=true responses; a non-recognized response shows nothing in the
kiosk.tsx variant when its message contains "No face detected" or
"quality", and shows nothing at all in the part_000 variant — so a no-face
response never produces a user-visible alarm. -/
theorem C10_kiosk_display (d : RecognizeData) :
    ((∃ n a m, kioskHandle d = some (KioskResult.success n a m)) ↔
      d.recognized = true) ∧
    (d.recognized = false → strContains d.message "No face detected" = true →
      kioskHandle d = none) ∧
    (d.recognized = false → strContains d.message "quality" = true →
      kioskHandle d = none) ∧
    (d.recognized = false → kioskHandleV2 d = none) ∧
    (∀ s, kioskSpeech (kioskHandle d) = some s → d.recognized = true) := by
  by_cases hr : d.recognized
  · refine ⟨⟨fun _ => hr, fun _ => ?_⟩, ?_, ?_, ?_, fun s _ => hr⟩
    · exact ⟨d.employeeName, d.attendanceType, d.message, by simp [kioskHandle, hr]⟩
    · intro hfalse
      rw [hr] at hfalse
      exact absurd hfalse (by simp)
    · intro hfalse
      rw [hr] at hfalse
      exact absurd hfalse (by simp)
    · intro hfalse
      rw [hr] at hfalse
      exact absurd hfalse (by simp)
  · have hr' : d.recognized = false := Bool.not_eq_true _ ▸ (by simpa using hr)
    refine ⟨⟨?_, fun htrue => absurd htrue hr⟩, ?_, ?_, ?_, ?_⟩
    · rintro ⟨n, a, m, hsome⟩
      rw [kioskHandle, if_neg hr] at hsome
      by_cases hc : (strContains d.message "No face detected" ||
          strContains d.message "quality") = true
      · rw [if_pos hc] at hsome
        exact absurd hsome (by simp)
      · rw [if_neg hc] at hsome
        exact absurd hsome (by simp)
    · intro _ hmsg
      rw [kioskHandle, if_neg hr]
      rw [if_pos (by rw [hmsg]; simp)]
    · intro _ hmsg
      rw [kioskHandle, if_neg hr]
      rw [if_pos (by rw [hmsg]; simp)]
    · intro _
      rw [kioskHandleV2, if_neg hr]
    · intro s hs
      rw [kioskHandle, if_neg hr] at hs
      by_cases hc : (strContains d.message "No face detected" ||
          strContains d.message "quality") = true
      · rw [if_pos hc] at hs
        exact absurd hs (by simp [kioskSpeech])
      · rw [if_neg hc] at hs
        exact absurd hs (by simp [kioskSpeech])

/-- Witness for C10 on the backend's no-face response: neither kiosk
variant shows anything. -/
theorem C10_kiosk_display_witness :
    (⟨false, "", "", noFaceMsg⟩ : RecognizeData).recognized = false ∧
    strContains (⟨false, "", "", noFaceMsg⟩ : RecognizeData).message
      "No face detected" = true ∧
    kioskHandle ⟨false, "", "", noFaceMsg⟩ = none ∧
    kioskHandleV2 ⟨false, "", "", noFaceMsg⟩ = none := by
  have h := C10_kiosk_display ⟨false, "", "", noFaceMsg⟩
  have hmsg : strContains (⟨false, "", "", noFaceMsg⟩ : RecognizeData).message
      "No face detected" = true := by decide
  exact ⟨rfl, hmsg, h.2.1 rfl hmsg, h.2.2.2.1 rfl⟩
